import Mathlib

/-!
Verification of the WebGL renderer core of this repository against its
natural-language specification.

The development shallowly embeds the Rust sources:
  src/wasm/src/renderer/webgl/renderer.rs          (resource registries, render_scene, draw_call)
  src/wasm/src/renderer/webgl/gltf_util.rs         (glTF import adapter)
  src/wasm/src/renderer/webgl/material/pbr_material.rs (PBR material tag / shader defines)

External collaborators (the graphics context, the generational-arena crate) and
repository files not available here (scene graph, shader, material trait) are
modelled at their interface boundary from the specification; each such
definition carries a doc comment saying so.  Side effects on the graphics
context are represented by an explicit event trace; a Rust `unwrap` panic is
represented by `Option.none`.
-/

set_option linter.unusedVariables false

/-- Handle into a generational arena: slot index plus generation counter
(generational_arena::Index). -/
structure Index where
  idx : Nat
  gen : Nat
  deriving DecidableEq, Repr

/-- First-match association-list lookup, mirroring map lookup
(HashMap::get / generational_arena lookup) on the key type. -/
def lookupA {α β : Type} [DecidableEq α] (k : α) : List (α × β) → Option β
  | [] => none
  | e :: es => if e.1 = k then some e.2 else lookupA k es

/-- Modelled from the spec (§4.1 Resource Arena; the arena implementation is an
external crate, not under src): a slot store abstracted by its lookup
interface, as an association list from handles to stored values. -/
structure Arena (α : Type) where
  items : List (Index × α)

/-- Arena lookup: `get(handle) -> Option<&T>`; a stale or unknown handle
reports absence (§4.1). -/
def Arena.get {α : Type} (a : Arena α) (h : Index) : Option α :=
  lookupA h a.items

/-- Arena insertion: stores a value and returns a fresh handle (§4.1). -/
def Arena.insert {α : Type} (a : Arena α) (v : α) : Arena α × Index :=
  let h : Index := ⟨a.items.length, 0⟩
  (⟨a.items ++ [(h, v)]⟩, h)

/-- Modelled from the spec (§6 Graphics Context): buffer binding targets. -/
inductive BufferTarget
  | arrayBuffer
  | elementArrayBuffer
  deriving DecidableEq, Repr

/-- Modelled from the spec (§6 Graphics Context): buffer usage hints. -/
inductive BufferUsage
  | staticDraw
  | dynamicDraw
  deriving DecidableEq, Repr

/-- Modelled from the spec (§6 Graphics Context): component types of typed
array data (context.rs TypedArrayKind, as matched in gltf_util.rs). -/
inductive TypedArrayKind
  | uint8
  | int8
  | int16
  | uint16
  | uint32
  | float32
  deriving DecidableEq, Repr

/-- Modelled from the spec (§6 Graphics Context): draw-call primitive modes
(context.rs DrawMode; pbr_material.rs uses DrawMode::Triangles). -/
inductive DrawMode
  | points
  | lines
  | lineLoop
  | lineStrip
  | triangles
  | triangleStrip
  | triangleFan
  deriving DecidableEq, Repr

/-- Modelled from the spec (§6 Graphics Context): togglable render features. -/
inductive Feature
  | cullFace
  | depthTest
  deriving DecidableEq, Repr

/-- Semantic vertex-attribute names (shader.rs AttributeName is not under src;
constructors are those matched in gltf_util.rs). -/
inductive AttributeName
  | position
  | normal
  | uv
  | unknown (s : String)
  deriving DecidableEq, Repr

/-- Attribute data layout (shader.rs AttributeOptions; fields as constructed in
gltf_util.rs and consumed in renderer.rs). -/
structure AttributeOptions where
  component_type : TypedArrayKind
  item_size : Int
  normalized : Bool
  stride : Int
  offset : Int
  deriving DecidableEq, Repr

/-- An f32 value abstracted by its bit pattern; no claim computes with float
arithmetic. -/
structure F32 where
  bits : Nat
  deriving DecidableEq, Repr

/-- na::Vector3 of f32 components (named Vec3 here; Vector3 exists in the
ambient library). -/
structure Vec3 where
  x : F32
  y : F32
  z : F32
  deriving DecidableEq, Repr

/-- na::Vector2 of f32 components. -/
structure Vec2 where
  x : F32
  y : F32
  deriving DecidableEq, Repr

/-- na::Matrix4 of f32, abstracted by its entry list; no claim computes with
matrices. -/
structure Matrix4 where
  entries : List F32
  deriving DecidableEq, Repr

/-- Camera: view and projection transforms (renderer.rs). -/
structure Camera where
  view : Matrix4
  projection : Matrix4
  deriving DecidableEq, Repr

/-- Modelled from the spec (§3 Node; scene/node.rs is not under src): local and
cached world transforms, structural parent/child links, optional mesh handle.
pbr_material.rs confirms the matrix_world field name. -/
structure Node where
  matrix_local : Matrix4
  matrix_world : Matrix4
  parent : Option Index
  children : List Index
  mesh : Option Index
  deriving Repr

/-- Modelled from the spec (§4.3; scene/scene.rs is not under src): the scene
graph's node storage. -/
structure Scene where
  nodes : Arena Node

/-- Scene node lookup by handle. -/
def Scene.get_node (s : Scene) (h : Index) : Option Node :=
  s.nodes.get h

/-- Modelled from the spec (§4.3, scene/scene.rs not under src): depth-first
traversal from a root, returning in traversal order every node with a
non-empty mesh attachment.  Fuel bounds the recursion depth (cycles are a
documented precondition violation, §7). -/
def Scene.collectVisibleAux (s : Scene) : Nat → Index → List Index
  | 0, _ => []
  | fuel + 1, h =>
    match s.get_node h with
    | none => []
    | some n =>
      (if n.mesh.isSome then [h] else []) ++
        (n.children.map (fun c => s.collectVisibleAux fuel c)).flatten

/-- Modelled from the spec (§4.3): `collect_visible_sub_items(root)`. -/
def Scene.collect_visible_sub_items (s : Scene) (root : Index) : List Index :=
  s.collectVisibleAux (s.nodes.items.length + 1) root

/-- Modelled from the spec (§4.4/§6; shader.rs is not under src): a compiled
program, identified by a numeric id, exposing the names of its declared vertex
attributes in iteration order (the keys of get_attribute_locations). -/
structure Shader where
  id : Nat
  attribute_locations : List AttributeName
  deriving DecidableEq, Repr

/-- Modelled from the spec (§4.4; the Material trait object is not under src):
the capability record a material exposes to the renderer.  create_shader is
abstracted by the shader it yields; the compilation side effect is recorded as
a trace event by the caller. -/
structure Material where
  get_tag : String
  create_shader : Shader
  draw_mode : DrawMode
  cull_face : Bool
  depth_test : Bool

/-- A web_sys::WebGlBuffer (external object) abstracted by an opaque id. -/
structure WebGlBuffer where
  id : Nat
  deriving DecidableEq, Repr

/-- Accessor: how to read a buffer region (renderer.rs). -/
structure Accessor where
  buffer : Index
  count : Int
  options : AttributeOptions
  deriving DecidableEq, Repr

/-- Geometry attribute map (renderer.rs `Attributes`, a HashMap embedded as an
association list). -/
abbrev Attributes := List (AttributeName × Index)

/-- Optional index accessor handle (renderer.rs `Indices`). -/
abbrev Indices := Option Index

/-- Geometry: named attributes plus optional index accessor (renderer.rs). -/
structure Geometry where
  attributes : Attributes
  indices : Indices

/-- Primitive: one geometry handle with an optional material handle
(renderer.rs). -/
structure Primitive where
  geometry : Index
  material : Option Index
  deriving DecidableEq, Repr

/-- Mesh: ordered primitives plus an optional name (renderer.rs). -/
structure Mesh where
  primitives : List Primitive
  name : Option String

/-- The renderer's own state (renderer.rs).  The graphics context itself is an
external collaborator; its side effects are represented by the event trace, so
it carries no modelled state here. -/
structure Renderer where
  buffers : Arena WebGlBuffer
  accessors : Arena Accessor
  geometries : Arena Geometry
  materials : Arena Material
  meshes : Arena Mesh
  cameras : Arena Camera
  scene : Scene
  shaders : List (String × Shader)

/-- One observable effect of the render path: a call into the external
graphics context, a scene-graph operation, or a shader compilation, in the
order issued by the renderer.  `updateWorldTransforms` names the scene-graph
operation of §4.3 so that its occurrence (or absence) in a trace can be
stated. -/
inductive RenderEvent
  | updateWorldTransforms
  | collectVisible (root : Index)
  | compileShader (tag : String)
  | bindShader (id : Nat)
  | setUniforms
  | setFeature (f : Feature) (enabled : Bool)
  | bindBuffer (target : BufferTarget) (buffer : WebGlBuffer)
  | bindAttribute (name : AttributeName) (options : AttributeOptions)
  | switchAttributes (amount : Int)
  | drawElements (mode : DrawMode) (count : Int) (kind : TypedArrayKind) (offset : Int)
  | drawArrays (mode : DrawMode) (first : Int) (count : Int)
  deriving DecidableEq, Repr

/-- Whether an event is a draw call (indexed or not). -/
def RenderEvent.isDraw : RenderEvent → Bool
  | RenderEvent.drawElements _ _ _ _ => true
  | RenderEvent.drawArrays _ _ _ => true
  | _ => false

/-- Renderer::checkup_shader: populate the shader cache for the material's tag
if it is not already present (renderer.rs lines 102-110). -/
def Renderer.checkup_shader (r : Renderer) (material : Material) :
    Renderer × List RenderEvent :=
  let tag := material.get_tag
  match lookupA tag r.shaders with
  | some _ => (r, [])
  | none =>
      ({ r with shaders := (tag, material.create_shader) :: r.shaders },
        [RenderEvent.compileShader tag])

/-- Renderer::insert_material: ensure the shader cache holds the material's
tag, then store the material (renderer.rs lines 123-127). -/
def Renderer.insert_material (r : Renderer) (material : Material) :
    Renderer × Index × List RenderEvent :=
  let step := r.checkup_shader material
  let ins := step.1.materials.insert material
  ({ step.1 with materials := ins.1 }, ins.2, step.2)

/-- A Rust `for` loop whose body may panic, as an explicit fold over `Option`
(None represents a panic aborting the whole call). -/
def foldOpt {σ α : Type} (f : σ → α → Option σ) : σ → List α → Option σ
  | st, [] => some st
  | st, a :: l =>
    match f st a with
    | none => none
    | some st2 => foldOpt f st2 l

/-- One iteration of draw_call's attribute loop (renderer.rs lines 186-199):
state is (attr_amount, count, events issued so far).  The receiver is read
through the immutable borrow `r`. -/
def Renderer.bindAttributeLoop (r : Renderer) (geometry : Geometry)
    (st : Int × Int × List RenderEvent) (name : AttributeName) :
    Option (Int × Int × List RenderEvent) :=
  match lookupA name geometry.attributes with
  | some accessor_handle =>
    match r.accessors.get accessor_handle with
    | none => none
    | some accessor =>
      match r.buffers.get accessor.buffer with
      | none => none
      | some buffer =>
        some (st.1 + 1, accessor.count,
          st.2.2 ++
            [RenderEvent.bindBuffer BufferTarget.arrayBuffer buffer,
              RenderEvent.bindAttribute name accessor.options])
  | none => some (st.1 + 1, st.2.1, st.2.2)

/-- Renderer::draw_call (renderer.rs lines 164-216).  Returns the renderer
state after the call together with the trace of context calls; `none`
represents a panic (a `.unwrap()` on an absent value). -/
def Renderer.draw_call (r : Renderer) (geometry : Geometry) (material : Material)
    (node : Node) (camera : Camera) : Option (Renderer × List RenderEvent) :=
  let tag := material.get_tag
  match lookupA tag r.shaders with
  | none => none
  | some shader =>
    let ev0 : List RenderEvent :=
      [RenderEvent.bindShader shader.id, RenderEvent.setUniforms,
        RenderEvent.setFeature Feature.cullFace material.cull_face,
        RenderEvent.setFeature Feature.depthTest material.depth_test]
    let mode := material.draw_mode
    match foldOpt (r.bindAttributeLoop geometry) (0, 0, ev0) shader.attribute_locations with
    | none => none
    | some st =>
      let ev1 := st.2.2 ++ [RenderEvent.switchAttributes st.1]
      match geometry.indices with
      | some accessor_handle =>
        match r.accessors.get accessor_handle with
        | none => none
        | some accessor =>
          match r.buffers.get accessor.buffer with
          | none => none
          | some indices =>
            some (r, ev1 ++
              [RenderEvent.bindBuffer BufferTarget.elementArrayBuffer indices,
                RenderEvent.drawElements mode accessor.count
                  accessor.options.component_type 0])
      | none => some (r, ev1 ++ [RenderEvent.drawArrays mode 0 st.2.1])

/-- Body of render_scene's inner loop over a mesh's primitives (renderer.rs
lines 153-160): a primitive without a material is skipped; otherwise geometry
and material are resolved (panicking on a stale handle) and draw_call is
dispatched.  The state threads the renderer together with the accumulated
trace. -/
def Renderer.drawPrimitive (node : Node) (camera : Camera)
    (st : Renderer × List RenderEvent) (primitive : Primitive) :
    Option (Renderer × List RenderEvent) :=
  match primitive.material with
  | some material_handle =>
    match st.1.geometries.get primitive.geometry with
    | none => none
    | some geometry =>
      match st.1.materials.get material_handle with
      | none => none
      | some material =>
        match st.1.draw_call geometry material node camera with
        | none => none
        | some out => some (out.1, st.2 ++ out.2)
  | none => some st

/-- Body of render_scene's outer loop over visible nodes (renderer.rs lines
149-161): resolve node, its mesh handle and mesh (each `.unwrap()`), then fold
over the mesh's primitives. -/
def Renderer.drawNode (camera : Camera) (st : Renderer × List RenderEvent)
    (handle : Index) : Option (Renderer × List RenderEvent) :=
  match st.1.scene.get_node handle with
  | none => none
  | some node =>
    match node.mesh with
    | none => none
    | some mesh_handle =>
      match st.1.meshes.get mesh_handle with
      | none => none
      | some mesh =>
        foldOpt (Renderer.drawPrimitive node camera) st mesh.primitives

/-- Renderer::render_scene (renderer.rs lines 145-162): collect the visible
mesh-bearing nodes from root, resolve the camera, and draw each node's
primitives.  Returns the renderer state after the call and the full event
trace; `none` represents a panic. -/
def Renderer.render_scene (r : Renderer) (root_handle camera_handle : Index) :
    Option (Renderer × List RenderEvent) :=
  let visible_items := r.scene.collect_visible_sub_items root_handle
  match r.cameras.get camera_handle with
  | none => none
  | some camera =>
    foldOpt (Renderer.drawNode camera)
      (r, [RenderEvent.collectVisible root_handle]) visible_items

/-- PbrMaterial configuration (pbr_material.rs lines 13-22). -/
structure PbrMaterial where
  color : Vec3
  color_map : Option Index
  debug_cube_map : Option Index
  uv_repeating : Vec2
  cull_face : Bool
  depth_test : Bool
  draw_mode : DrawMode

/-- PbrMaterial::new (pbr_material.rs lines 25-35). -/
def PbrMaterial.new : PbrMaterial :=
  { color := ⟨⟨0⟩, ⟨0⟩, ⟨0⟩⟩
    cull_face := true
    depth_test := true
    draw_mode := DrawMode.triangles
    color_map := none
    debug_cube_map := none
    uv_repeating := ⟨⟨1⟩, ⟨1⟩⟩ }

/-- PbrMaterial::get_tag (pbr_material.rs lines 78-90): start from "pbr",
append ":color_map" when the color map is set, then ":debug_cube_map" when the
debug cube map is set. -/
def PbrMaterial.get_tag (m : PbrMaterial) : String :=
  let tag := "pbr"
  let tag := if m.color_map.isSome then tag ++ ":color_map" else tag
  let tag := if m.debug_cube_map.isSome then tag ++ ":debug_cube_map" else tag
  tag

/-- The preprocessor defines selected by PbrMaterial::create_shader
(pbr_material.rs lines 96-104), in push order. -/
def PbrMaterial.shader_defines (m : PbrMaterial) : List String :=
  (if m.color_map.isSome then ["USE_COLOR_MAP"] else []) ++
    (if m.debug_cube_map.isSome then ["USE_DEBUG_CUBE_MAP"] else [])

/-- The shader source handed to the context by PbrMaterial::create_shader
(pbr_material.rs lines 92-107): the fixed pbr vertex/fragment pair (named, not
inlined, here) plus the configuration-derived defines.  Shader code identity
is determined by this value. -/
structure PbrShaderSource where
  vert_src : String
  frag_src : String
  defines : List String
  deriving DecidableEq, Repr

/-- PbrMaterial::create_shader's compilation request (pbr_material.rs lines
92-107): fixed source files, defines from the optional texture slots. -/
def PbrMaterial.create_shader_source (m : PbrMaterial) : PbrShaderSource :=
  { vert_src := "./shaders/pbr_vert.glsl"
    frag_src := "./shaders/pbr_frag.glsl"
    defines := m.shader_defines }

/-- glTF data types (gltf crate, accessor::DataType, as matched in
gltf_util.rs lines 60-67). -/
inductive GltfDataType
  | u8
  | i8
  | i16
  | u16
  | u32
  | f32
  deriving DecidableEq, Repr

/-- The view a glTF accessor references (gltf crate interface: view().index(),
view().offset(), view().length(), view().stride()). -/
structure GltfViewRef where
  index : Nat
  offset : Nat
  length : Nat
  stride : Option Nat
  deriving DecidableEq, Repr

/-- One glTF accessor definition (gltf crate interface as read by
gltf_util.rs: sparse().is_some(), view(), data_type(), dimensions()
.multiplicity(), normalized(), offset(), count()). -/
structure GltfAccessor where
  view : Option GltfViewRef
  sparse : Bool
  data_type : GltfDataType
  multiplicity : Nat
  normalized : Bool
  offset : Nat
  count : Nat
  deriving DecidableEq, Repr

/-- One glTF mesh primitive: semantic-to-accessor-index map and optional index
accessor index (gltf crate interface). -/
structure GltfPrimitive where
  attributes : List (String × Nat)
  indices : Option Nat
  deriving DecidableEq, Repr

/-- One glTF mesh (gltf crate interface). -/
structure GltfMesh where
  primitives : List GltfPrimitive
  deriving DecidableEq, Repr

/-- A parsed glTF document as read by gltf_util.rs: accessors in index order,
meshes, and the optional binary blob (abstracted by its bytes). -/
structure Gltf where
  accessors : List GltfAccessor
  meshes : List GltfMesh
  blob : Option (List Nat)
  deriving DecidableEq, Repr

/-- Whether any mesh primitive uses the accessor with global index `acc_idx`
as its index source (gltf_util.rs lines 35-45). -/
def Gltf.isIndexBuffer (g : Gltf) (acc_idx : Nat) : Bool :=
  g.meshes.any (fun m =>
    m.primitives.any (fun p =>
      match p.indices with
      | some acc => acc == acc_idx
      | none => false))

/-- The Attribute record built per accessor by create_gltf_attributes
(gltf_util.rs; this is the Attribute type of the renderer version that
gltf_util.rs imports). -/
structure Attribute where
  buffer : Index
  options : AttributeOptions
  deriving DecidableEq, Repr

/-- gltf_util.rs lines 60-67: map a glTF data type to a typed-array kind. -/
def componentTypeOf : GltfDataType → TypedArrayKind
  | GltfDataType.u8 => TypedArrayKind.uint8
  | GltfDataType.i8 => TypedArrayKind.int8
  | GltfDataType.i16 => TypedArrayKind.int16
  | GltfDataType.u16 => TypedArrayKind.uint16
  | GltfDataType.u32 => TypedArrayKind.uint32
  | GltfDataType.f32 => TypedArrayKind.float32

/-- gltf_util.rs lines 59-72: the AttributeOptions built for an accessor with
a view. -/
def accessorOptions (accessor_def : GltfAccessor) (view_def : GltfViewRef) :
    AttributeOptions :=
  { component_type := componentTypeOf accessor_def.data_type
    item_size := Int.ofNat accessor_def.multiplicity
    normalized := accessor_def.normalized
    stride := Int.ofNat (view_def.stride.getD 0)
    offset := Int.ofNat accessor_def.offset }

/-- One GPU buffer created during glTF import (renderer.create_buffer),
recorded by its target, usage hint and the byte range of the view it was
filled from.  The handle of the n-th created buffer is ⟨n, 0⟩, matching the
arena-insert model. -/
structure CreatedBuffer where
  target : BufferTarget
  usage : BufferUsage
  offset : Nat
  length : Nat
  deriving DecidableEq, Repr

/-- The accessor loop of create_gltf_attributes (gltf_util.rs lines 18-86).
`acc_idx` is the global index of the accessor at the head of the worklist;
`bufs` the buffers created so far; `buffer_indices` the view-index-to-handle
map; `attrs` the attributes built so far.  `none` represents a panic (the
sparse rejection or a missing blob). -/
def createGltfAttributesAux (g : Gltf) :
    Nat → List GltfAccessor → List CreatedBuffer → List (Nat × Index) →
    List Attribute → Option (List CreatedBuffer × List Attribute)
  | _, [], bufs, _, attrs => some (bufs, attrs)
  | acc_idx, accessor_def :: rest, bufs, buffer_indices, attrs =>
    if accessor_def.sparse = true then none
    else
      match accessor_def.view with
      | some view_def =>
        match g.blob with
        | none => none
        | some _blob =>
          match lookupA view_def.index buffer_indices with
          | some handle =>
            createGltfAttributesAux g (acc_idx + 1) rest bufs buffer_indices
              (attrs ++ [{ buffer := handle
                           options := accessorOptions accessor_def view_def }])
          | none =>
            let buffer_target :=
              if g.isIndexBuffer acc_idx then BufferTarget.elementArrayBuffer
              else BufferTarget.arrayBuffer
            let handle : Index := ⟨bufs.length, 0⟩
            createGltfAttributesAux g (acc_idx + 1) rest
              (bufs ++ [{ target := buffer_target
                          usage := BufferUsage.staticDraw
                          offset := view_def.offset
                          length := view_def.length }])
              ((view_def.index, handle) :: buffer_indices)
              (attrs ++ [{ buffer := handle
                           options := accessorOptions accessor_def view_def }])
      | none =>
        createGltfAttributesAux g (acc_idx + 1) rest bufs buffer_indices
          (attrs ++ [{ buffer := ⟨0, 0⟩
                       options := { component_type := TypedArrayKind.float32
                                    item_size := 3
                                    normalized := false
                                    stride := 0
                                    offset := 0 } }])

/-- create_gltf_attributes (gltf_util.rs lines 14-89): walk the accessors in
index order, rejecting sparse accessors, creating one buffer per distinct
view (keyed by view identity) and one Attribute per accessor. -/
def create_gltf_attributes (g : Gltf) :
    Option (List CreatedBuffer × List Attribute) :=
  createGltfAttributesAux g 0 g.accessors [] [] []

/-- Concrete data for evaluating the renderer on closed inputs. -/
def exMatrix : Matrix4 := ⟨[]⟩

/-- A concrete camera. -/
def exCamera : Camera := ⟨exMatrix, exMatrix⟩

/-- A concrete shader with no declared attributes. -/
def exShader : Shader := ⟨1, []⟩

/-- A concrete material whose tag is cached in the example renderer. -/
def exMaterial : Material := ⟨"pbr", exShader, DrawMode.triangles, true, true⟩

/-- A concrete geometry with no attributes and no index accessor. -/
def exGeometry : Geometry := ⟨[], none⟩

/-- A concrete mesh-bearing node. -/
def exNode : Node := ⟨exMatrix, exMatrix, none, [], some ⟨0, 0⟩⟩

/-- A concrete mesh with one primitive referencing geometry and material 0. -/
def exMesh : Mesh := ⟨[⟨⟨0, 0⟩, some ⟨0, 0⟩⟩], none⟩

/-- A concrete renderer with one visible node, one primitive, and the "pbr"
shader cached. -/
def exRenderer : Renderer :=
  ⟨⟨[]⟩, ⟨[]⟩, ⟨[(⟨0, 0⟩, exGeometry)]⟩, ⟨[(⟨0, 0⟩, exMaterial)]⟩,
    ⟨[(⟨0, 0⟩, exMesh)]⟩, ⟨[(⟨0, 0⟩, exCamera)]⟩, ⟨⟨[(⟨0, 0⟩, exNode)]⟩⟩,
    [("pbr", exShader)]⟩

/-- The trace exRenderer produces for a render from node 0 with camera 0. -/
def exTrace : List RenderEvent :=
  [RenderEvent.collectVisible ⟨0, 0⟩, RenderEvent.bindShader 1,
    RenderEvent.setUniforms, RenderEvent.setFeature Feature.cullFace true,
    RenderEvent.setFeature Feature.depthTest true,
    RenderEvent.switchAttributes 0, RenderEvent.drawArrays DrawMode.triangles 0 0]

/-- exRenderer with the geometry arena emptied, so the primitive's geometry
handle is stale. -/
def exRendererStale : Renderer := { exRenderer with geometries := ⟨[]⟩ }

/-- The counts of those shader-declared attributes that are found in the
geometry, in the shader's attribute iteration order (the claim-side
description of draw_call's running `count`). -/
def matchedCounts (r : Renderer) (g : Geometry) (names : List AttributeName) :
    List Int :=
  names.filterMap (fun name =>
    match lookupA name g.attributes with
    | some handle => (r.accessors.get handle).map Accessor.count
    | none => none)

/-- The trace draw_call alone produces for the example primitive. -/
def exDrawTrace : List RenderEvent :=
  [RenderEvent.bindShader 1, RenderEvent.setUniforms,
    RenderEvent.setFeature Feature.cullFace true,
    RenderEvent.setFeature Feature.depthTest true,
    RenderEvent.switchAttributes 0, RenderEvent.drawArrays DrawMode.triangles 0 0]

/-- exRenderer with an empty shader cache. -/
def exRendererNoShader : Renderer := { exRenderer with shaders := [] }

/-- A second material producing the same tag as exMaterial but carrying a
different compiled shader. -/
def exMaterial2 : Material := ⟨"pbr", ⟨2, []⟩, DrawMode.triangles, true, true⟩

/-- A sparse glTF accessor. -/
def exSparseAccessor : GltfAccessor :=
  ⟨none, true, GltfDataType.f32, 3, false, 0, 6⟩

/-- A glTF document containing a sparse accessor. -/
def exGltfSparse : Gltf := ⟨[exSparseAccessor], [], none⟩

/-- The first view of the example glTF document. -/
def exViewRef0 : GltfViewRef := ⟨0, 0, 12, none⟩

/-- The second view of the example glTF document. -/
def exViewRef1 : GltfViewRef := ⟨1, 0, 12, none⟩

/-- First example accessor, referencing view 0. -/
def exAccessor0 : GltfAccessor :=
  ⟨some exViewRef0, false, GltfDataType.f32, 3, false, 0, 6⟩

/-- Second example accessor, distinct from the first but referencing the same
view 0. -/
def exAccessor1 : GltfAccessor :=
  ⟨some exViewRef0, false, GltfDataType.f32, 2, false, 4, 6⟩

/-- Third example accessor, referencing view 1 and used as an index source. -/
def exAccessorIdx : GltfAccessor :=
  ⟨some exViewRef1, false, GltfDataType.u16, 1, false, 0, 12⟩

/-- Example glTF document: three accessors over two views, one mesh whose
primitive uses accessor 2 as its index source. -/
def exGltf : Gltf :=
  ⟨[exAccessor0, exAccessor1, exAccessorIdx],
    [⟨[⟨[("POSITION", 0)], some 2⟩]⟩], some []⟩

/-- The number of distinct view indices referenced by the accessors (beyond
those already in `seen`): the claim-side count of "one buffer per distinct
underlying view". -/
def countNewViews (seen : List Nat) : List GltfAccessor → Nat
  | [] => 0
  | a :: rest =>
    match a.view with
    | some vr =>
      if vr.index ∈ seen then countNewViews seen rest
      else 1 + countNewViews (vr.index :: seen) rest
    | none => countNewViews seen rest

/-- The buffers created when importing exGltf. -/
def exGltfBuffers : List CreatedBuffer :=
  [⟨BufferTarget.arrayBuffer, BufferUsage.staticDraw, 0, 12⟩,
    ⟨BufferTarget.elementArrayBuffer, BufferUsage.staticDraw, 0, 12⟩]

/-- The attributes built when importing exGltf. -/
def exGltfAttrs : List Attribute :=
  [⟨⟨0, 0⟩, ⟨TypedArrayKind.float32, 3, false, 0, 0⟩⟩,
    ⟨⟨0, 0⟩, ⟨TypedArrayKind.float32, 2, false, 0, 4⟩⟩,
    ⟨⟨1, 0⟩, ⟨TypedArrayKind.uint16, 1, false, 0, 0⟩⟩]

theorem lookupA_cons_self {α β : Type} [DecidableEq α] (k : α) (v : β)
    (l : List (α × β)) : lookupA k ((k, v) :: l) = some v := by
  simp [lookupA]

theorem lookupA_cons_ne {α β : Type} [DecidableEq α] {k k2 : α} (v : β)
    (l : List (α × β)) (h : k2 ≠ k) : lookupA k ((k2, v) :: l) = lookupA k l := by
  simp [lookupA, h]

theorem lookupA_none_not_mem {α β : Type} [DecidableEq α] {k : α}
    {l : List (α × β)} (h : lookupA k l = none) : k ∉ l.map Prod.fst := by
  induction l with
  | nil => simp
  | cons e es ih =>
    simp only [lookupA] at h
    by_cases he : e.1 = k
    · simp [he] at h
    · simp only [he, if_false] at h
      simp only [List.map_cons, List.mem_cons]
      rintro (rfl | hm)
      · exact he rfl
      · exact ih h hm

theorem lookupA_some_mem {α β : Type} [DecidableEq α] {k : α} {v : β}
    {l : List (α × β)} (h : lookupA k l = some v) : k ∈ l.map Prod.fst := by
  induction l with
  | nil => simp [lookupA] at h
  | cons e es ih =>
    simp only [lookupA] at h
    by_cases he : e.1 = k
    · simp [he]
    · simp only [he, if_false] at h
      simp only [List.map_cons, List.mem_cons]
      exact Or.inr (ih h)

theorem lookupA_not_mem_none {α β : Type} [DecidableEq α] {k : α}
    {l : List (α × β)} (h : k ∉ l.map Prod.fst) : lookupA k l = none := by
  induction l with
  | nil => rfl
  | cons e es ih =>
    simp only [List.map_cons, List.mem_cons, not_or] at h
    simp only [lookupA]
    rw [if_neg (fun he => h.1 he.symm)]
    exact ih h.2

theorem foldOpt_inv {σ α : Type} {f : σ → α → Option σ} {P : σ → Prop}
    (hf : ∀ st a st2, P st → f st a = some st2 → P st2) :
    ∀ l st st2, foldOpt f st l = some st2 → P st → P st2 := by
  intro l
  induction l with
  | nil =>
    intro st st2 h hp
    simp only [foldOpt] at h
    cases h
    exact hp
  | cons a l ih =>
    intro st st2 h hp
    simp only [foldOpt] at h
    cases hfa : f st a with
    | none => rw [hfa] at h; cases h
    | some st1 =>
      rw [hfa] at h
      exact ih st1 st2 h (hf st a st1 hp hfa)

theorem foldOpt_none_of_mem {σ α : Type} {f : σ → α → Option σ} {P : σ → Prop}
    {a0 : α} (hf : ∀ st a st2, P st → f st a = some st2 → P st2)
    (hfail : ∀ st, P st → f st a0 = none) :
    ∀ l st, a0 ∈ l → P st → foldOpt f st l = none := by
  intro l
  induction l with
  | nil => intro st hm; simp at hm
  | cons a l ih =>
    intro st hm hp
    simp only [foldOpt]
    rcases List.mem_cons.mp hm with rfl | hm2
    · rw [hfail st hp]
    · cases hfa : f st a with
      | none => rfl
      | some st1 =>
        exact ih st1 hm2 (hf st a st1 hp hfa)

theorem head_append_some {α : Type} {l : List α} {x : α} (t : List α)
    (h : l.head? = some x) : (l ++ t).head? = some x := by
  cases l with
  | nil => simp at h
  | cons a l => simpa using h

theorem drawCall_state {r : Renderer} {g : Geometry} {m : Material} {node : Node}
    {camera : Camera} {out : Renderer × List RenderEvent}
    (h : r.draw_call g m node camera = some out) : out.1 = r := by
  unfold Renderer.draw_call at h
  cases hs : lookupA m.get_tag r.shaders with
  | none => simp only [hs] at h; exact Option.noConfusion h
  | some shader =>
    simp only [hs] at h
    cases hf : foldOpt (r.bindAttributeLoop g)
        (0, 0, [RenderEvent.bindShader shader.id, RenderEvent.setUniforms,
          RenderEvent.setFeature Feature.cullFace m.cull_face,
          RenderEvent.setFeature Feature.depthTest m.depth_test])
        shader.attribute_locations with
    | none => simp only [hf] at h; exact Option.noConfusion h
    | some st =>
      simp only [hf] at h
      cases hi : g.indices with
      | none =>
        simp only [hi] at h
        cases h
        rfl
      | some accessor_handle =>
        simp only [hi] at h
        cases ha : r.accessors.get accessor_handle with
        | none => simp only [ha] at h; exact Option.noConfusion h
        | some accessor =>
          simp only [ha] at h
          cases hb : r.buffers.get accessor.buffer with
          | none => simp only [hb] at h; exact Option.noConfusion h
          | some indices =>
            simp only [hb] at h
            cases h
            rfl


theorem bindLoop_count {r : Renderer} {g : Geometry} :
    ∀ (names : List AttributeName) (amt cnt : Int) (evs : List RenderEvent)
      (st : Int × Int × List RenderEvent),
    foldOpt (r.bindAttributeLoop g) (amt, cnt, evs) names = some st →
    st.2.1 = (matchedCounts r g names).getLastD cnt := by
  intro names
  induction names with
  | nil =>
    intro amt cnt evs st h
    simp only [foldOpt] at h
    cases h
    rfl
  | cons name rest ih =>
    intro amt cnt evs st h
    simp only [foldOpt, Renderer.bindAttributeLoop] at h
    cases hl : lookupA name g.attributes with
    | none =>
      simp only [hl] at h
      have hrec := ih _ _ _ _ h
      have hmc : matchedCounts r g (name :: rest) = matchedCounts r g rest := by
        simp only [matchedCounts, List.filterMap_cons, hl]
      rw [hmc]
      exact hrec
    | some handle =>
      simp only [hl] at h
      cases ha : r.accessors.get handle with
      | none => simp only [ha] at h; exact Option.noConfusion h
      | some accessor =>
        simp only [ha] at h
        cases hb : r.buffers.get accessor.buffer with
        | none => simp only [hb] at h; exact Option.noConfusion h
        | some buffer =>
          simp only [hb] at h
          have hrec := ih _ _ _ _ h
          have hmc : matchedCounts r g (name :: rest) =
              accessor.count :: matchedCounts r g rest := by
            simp only [matchedCounts, List.filterMap_cons, hl, ha]
            rfl
          rw [hmc, List.getLastD_cons]
          exact hrec

theorem bindLoop_events {r : Renderer} {g : Geometry} :
    ∀ (names : List AttributeName) (amt cnt : Int) (evs : List RenderEvent)
      (st : Int × Int × List RenderEvent),
    foldOpt (r.bindAttributeLoop g) (amt, cnt, evs) names = some st →
    ∃ tail, st.2.2 = evs ++ tail ∧
      ∀ e ∈ tail, e.isDraw = false ∧ e ≠ RenderEvent.updateWorldTransforms := by
  intro names
  induction names with
  | nil =>
    intro amt cnt evs st h
    simp only [foldOpt] at h
    cases h
    exact ⟨[], by simp, by simp⟩
  | cons name rest ih =>
    intro amt cnt evs st h
    simp only [foldOpt, Renderer.bindAttributeLoop] at h
    cases hl : lookupA name g.attributes with
    | none =>
      simp only [hl] at h
      exact ih _ _ _ _ h
    | some handle =>
      simp only [hl] at h
      cases ha : r.accessors.get handle with
      | none => simp only [ha] at h; exact Option.noConfusion h
      | some accessor =>
        simp only [ha] at h
        cases hb : r.buffers.get accessor.buffer with
        | none => simp only [hb] at h; exact Option.noConfusion h
        | some buffer =>
          simp only [hb] at h
          obtain ⟨tail, htail, hprop⟩ := ih _ _ _ _ h
          refine ⟨[RenderEvent.bindBuffer BufferTarget.arrayBuffer buffer,
            RenderEvent.bindAttribute name accessor.options] ++ tail, ?_, ?_⟩
          · rw [htail, List.append_assoc]
          · intro e he
            rcases List.mem_append.mp he with hm | hm
            · rcases List.mem_cons.mp hm with rfl | hm2
              · exact ⟨rfl, by simp⟩
              · rcases List.mem_cons.mp hm2 with rfl | hm3
                · exact ⟨rfl, by simp⟩
                · simp at hm3
            · exact hprop e hm

theorem drawCall_shape {r : Renderer} {g : Geometry} {m : Material} {node : Node}
    {camera : Camera} {out : Renderer × List RenderEvent}
    (h : r.draw_call g m node camera = some out) :
    ∃ shader pre,
      lookupA m.get_tag r.shaders = some shader ∧
      (∀ e ∈ pre, e.isDraw = false ∧ e ≠ RenderEvent.updateWorldTransforms) ∧
      ((∃ ah acc buf, g.indices = some ah ∧ r.accessors.get ah = some acc ∧
          r.buffers.get acc.buffer = some buf ∧
          out.2 = pre ++ [RenderEvent.bindBuffer BufferTarget.elementArrayBuffer buf,
            RenderEvent.drawElements m.draw_mode acc.count
              acc.options.component_type 0]) ∨
        (g.indices = none ∧
          out.2 = pre ++ [RenderEvent.drawArrays m.draw_mode 0
            ((matchedCounts r g shader.attribute_locations).getLastD 0)])) := by
  unfold Renderer.draw_call at h
  cases hs : lookupA m.get_tag r.shaders with
  | none => simp only [hs] at h; exact Option.noConfusion h
  | some shader =>
    simp only [hs] at h
    cases hf : foldOpt (r.bindAttributeLoop g)
        (0, 0, [RenderEvent.bindShader shader.id, RenderEvent.setUniforms,
          RenderEvent.setFeature Feature.cullFace m.cull_face,
          RenderEvent.setFeature Feature.depthTest m.depth_test])
        shader.attribute_locations with
    | none => simp only [hf] at h; exact Option.noConfusion h
    | some st =>
      simp only [hf] at h
      obtain ⟨tail, htl, htlprop⟩ := bindLoop_events _ _ _ _ _ hf
      have hcnt := bindLoop_count _ _ _ _ _ hf
      have hpre : ∀ e ∈ st.2.2 ++ [RenderEvent.switchAttributes st.1],
          e.isDraw = false ∧ e ≠ RenderEvent.updateWorldTransforms := by
        intro e he
        rcases List.mem_append.mp he with hm | hm
        · rw [htl] at hm
          rcases List.mem_append.mp hm with hm2 | hm2
          · simp only [List.mem_cons, List.not_mem_nil, or_false] at hm2
            rcases hm2 with rfl | rfl | rfl | rfl <;> exact ⟨rfl, by simp⟩
          · exact htlprop e hm2
        · simp only [List.mem_singleton] at hm
          subst hm
          exact ⟨rfl, by simp⟩
      refine ⟨shader, st.2.2 ++ [RenderEvent.switchAttributes st.1], rfl, hpre, ?_⟩
      cases hi : g.indices with
      | none =>
        simp only [hi] at h
        cases h
        refine Or.inr ⟨rfl, ?_⟩
        simp only [List.append_assoc]
        rw [← hcnt]
      | some accessor_handle =>
        simp only [hi] at h
        cases ha : r.accessors.get accessor_handle with
        | none => simp only [ha] at h; exact Option.noConfusion h
        | some accessor =>
          simp only [ha] at h
          cases hb : r.buffers.get accessor.buffer with
          | none => simp only [hb] at h; exact Option.noConfusion h
          | some indices =>
            simp only [hb] at h
            cases h
            exact Or.inl ⟨accessor_handle, accessor, indices, rfl, ha, hb,
              by simp only [List.append_assoc]⟩

theorem drawCall_no_update {r : Renderer} {g : Geometry} {m : Material}
    {node : Node} {camera : Camera} {out : Renderer × List RenderEvent}
    (h : r.draw_call g m node camera = some out) :
    ∀ e ∈ out.2, e ≠ RenderEvent.updateWorldTransforms := by
  obtain ⟨shader, pre, hs, hpre, hbr⟩ := drawCall_shape h
  intro e he
  rcases hbr with ⟨ah, acc, buf, hi, ha, hb, hout⟩ | ⟨hi, hout⟩ <;> rw [hout] at he <;>
    rcases List.mem_append.mp he with hm | hm
  · exact (hpre e hm).2
  · simp only [List.mem_cons, List.not_mem_nil, or_false] at hm
    rcases hm with rfl | rfl <;> simp
  · exact (hpre e hm).2
  · simp only [List.mem_singleton] at hm
    subst hm
    simp

theorem drawPrimitive_state {node : Node} {camera : Camera}
    {st st2 : Renderer × List RenderEvent} {primitive : Primitive}
    (h : Renderer.drawPrimitive node camera st primitive = some st2) :
    st2.1 = st.1 := by
  unfold Renderer.drawPrimitive at h
  cases hm : primitive.material with
  | none => simp only [hm] at h; cases h; rfl
  | some material_handle =>
    simp only [hm] at h
    cases hg : st.1.geometries.get primitive.geometry with
    | none => simp only [hg] at h; exact Option.noConfusion h
    | some geometry =>
      simp only [hg] at h
      cases hmt : st.1.materials.get material_handle with
      | none => simp only [hmt] at h; exact Option.noConfusion h
      | some material =>
        simp only [hmt] at h
        cases hd : st.1.draw_call geometry material node camera with
        | none => simp only [hd] at h; exact Option.noConfusion h
        | some out =>
          simp only [hd] at h
          cases h
          exact (drawCall_state hd : out.1 = st.1)

theorem drawPrimitive_trace {node : Node} {camera : Camera}
    {st st2 : Renderer × List RenderEvent} {primitive : Primitive}
    (h : Renderer.drawPrimitive node camera st primitive = some st2) :
    ∃ tail, st2.2 = st.2 ++ tail ∧
      ∀ e ∈ tail, e ≠ RenderEvent.updateWorldTransforms := by
  unfold Renderer.drawPrimitive at h
  cases hm : primitive.material with
  | none =>
    simp only [hm] at h
    cases h
    exact ⟨[], by simp, by simp⟩
  | some material_handle =>
    simp only [hm] at h
    cases hg : st.1.geometries.get primitive.geometry with
    | none => simp only [hg] at h; exact Option.noConfusion h
    | some geometry =>
      simp only [hg] at h
      cases hmt : st.1.materials.get material_handle with
      | none => simp only [hmt] at h; exact Option.noConfusion h
      | some material =>
        simp only [hmt] at h
        cases hd : st.1.draw_call geometry material node camera with
        | none => simp only [hd] at h; exact Option.noConfusion h
        | some out =>
          simp only [hd] at h
          cases h
          exact ⟨out.2, rfl, drawCall_no_update hd⟩

theorem drawNode_state {camera : Camera} {st st2 : Renderer × List RenderEvent}
    {handle : Index} (h : Renderer.drawNode camera st handle = some st2) :
    st2.1 = st.1 := by
  unfold Renderer.drawNode at h
  cases hn : st.1.scene.get_node handle with
  | none => simp only [hn] at h; exact Option.noConfusion h
  | some node =>
    simp only [hn] at h
    cases hm : node.mesh with
    | none => simp only [hm] at h; exact Option.noConfusion h
    | some mesh_handle =>
      simp only [hm] at h
      cases hms : st.1.meshes.get mesh_handle with
      | none => simp only [hms] at h; exact Option.noConfusion h
      | some mesh =>
        simp only [hms] at h
        exact foldOpt_inv (P := fun s => s.1 = st.1)
          (fun s p s2 hp hstep => (drawPrimitive_state hstep).trans hp)
          mesh.primitives st st2 h rfl

theorem drawNode_trace {camera : Camera} {st st2 : Renderer × List RenderEvent}
    {handle : Index} (h : Renderer.drawNode camera st handle = some st2) :
    ∃ tail, st2.2 = st.2 ++ tail ∧
      ∀ e ∈ tail, e ≠ RenderEvent.updateWorldTransforms := by
  unfold Renderer.drawNode at h
  cases hn : st.1.scene.get_node handle with
  | none => simp only [hn] at h; exact Option.noConfusion h
  | some node =>
    simp only [hn] at h
    cases hm : node.mesh with
    | none => simp only [hm] at h; exact Option.noConfusion h
    | some mesh_handle =>
      simp only [hm] at h
      cases hms : st.1.meshes.get mesh_handle with
      | none => simp only [hms] at h; exact Option.noConfusion h
      | some mesh =>
        simp only [hms] at h
        refine foldOpt_inv
          (P := fun s => ∃ tail, s.2 = st.2 ++ tail ∧
            ∀ e ∈ tail, e ≠ RenderEvent.updateWorldTransforms)
          ?_ mesh.primitives st st2 h ⟨[], by simp, by simp⟩
        intro s p s2 hp hstep
        obtain ⟨t1, ht1, hp1⟩ := hp
        obtain ⟨t2, ht2, hp2⟩ := drawPrimitive_trace hstep
        refine ⟨t1 ++ t2, ?_, ?_⟩
        · rw [ht2, ht1, List.append_assoc]
        · intro e he
          rcases List.mem_append.mp he with hm2 | hm2
          · exact hp1 e hm2
          · exact hp2 e hm2

theorem renderScene_state {r : Renderer} {root_handle camera_handle : Index}
    {out : Renderer × List RenderEvent}
    (h : r.render_scene root_handle camera_handle = some out) : out.1 = r := by
  unfold Renderer.render_scene at h
  cases hc : r.cameras.get camera_handle with
  | none => simp only [hc] at h; exact Option.noConfusion h
  | some camera =>
    simp only [hc] at h
    exact foldOpt_inv (P := fun s => s.1 = r)
      (fun s hnd s2 hp hstep => (drawNode_state hstep).trans hp)
      _ _ _ h rfl

/-- C1, claim as stated is false: on this concrete renderer, render_scene
issues a draw call (isDraw is hit) yet its trace contains no
updateWorldTransforms event at all, so render_scene does not "first update
world transforms" before collecting and drawing. -/
theorem claim_C1_counterexample :
    (Renderer.render_scene exRenderer ⟨0, 0⟩ ⟨0, 0⟩).map
        (fun out => (out.2.any RenderEvent.isDraw,
          out.2.any (fun e => decide (e = RenderEvent.updateWorldTransforms)))) =
      some (true, false) := by
  decide

/-- C1 (amended): on every successful render_scene call the trace begins with
the collection of the visible mesh-bearing node sequence from root (hence the
collection precedes every draw call), and no world-transform update is
performed anywhere in the call. -/
theorem claim_C1 : ∀ (r : Renderer) (root_handle camera_handle : Index)
    (out : Renderer × List RenderEvent),
    r.render_scene root_handle camera_handle = some out →
    out.2.head? = some (RenderEvent.collectVisible root_handle) ∧
    ∀ e ∈ out.2, e ≠ RenderEvent.updateWorldTransforms := by
  intro r root_handle camera_handle out h
  unfold Renderer.render_scene at h
  cases hc : r.cameras.get camera_handle with
  | none => simp only [hc] at h; exact Option.noConfusion h
  | some camera =>
    simp only [hc] at h
    refine foldOpt_inv
      (P := fun s => s.2.head? = some (RenderEvent.collectVisible root_handle) ∧
        ∀ e ∈ s.2, e ≠ RenderEvent.updateWorldTransforms)
      ?_ _ _ _ h ⟨rfl, ?_⟩
    · intro s hnd s2 hp hstep
      obtain ⟨tail, ht, hprop⟩ := drawNode_trace hstep
      constructor
      · rw [ht]; exact head_append_some tail hp.1
      · intro e he
        rw [ht] at he
        rcases List.mem_append.mp he with hm | hm
        · exact hp.2 e hm
        · exact hprop e hm
    · intro e he
      simp only [List.mem_singleton] at he
      subst he
      simp

/-- Witness for C1 (amended), at the concrete renderer: its trace starts with
the collection event. -/
theorem claim_C1_witness :
    exTrace.head? = some (RenderEvent.collectVisible (⟨0, 0⟩ : Index)) :=
  (claim_C1 exRenderer ⟨0, 0⟩ ⟨0, 0⟩ (exRenderer, exTrace) rfl).1

/-- C2: during render_scene, if any primitive of a visible node's mesh has a
material but its geometry handle or material handle no longer resolves, the
whole call panics (models Rust unwrap aborting) rather than skipping the
primitive or continuing. -/
theorem claim_C2 : ∀ (r : Renderer) (root_handle camera_handle handle : Index)
    (node : Node) (mesh_handle : Index) (mesh : Mesh) (p : Primitive)
    (material_handle : Index),
    handle ∈ r.scene.collect_visible_sub_items root_handle →
    r.scene.get_node handle = some node →
    node.mesh = some mesh_handle →
    r.meshes.get mesh_handle = some mesh →
    p ∈ mesh.primitives →
    p.material = some material_handle →
    (r.geometries.get p.geometry = none ∨
      r.materials.get material_handle = none) →
    r.render_scene root_handle camera_handle = none := by
  intro r root_handle camera_handle handle node mesh_handle mesh p
    material_handle hvis hn hm hms hp hpm hfail
  unfold Renderer.render_scene
  cases hc : r.cameras.get camera_handle with
  | none => simp only [hc]
  | some camera =>
    simp only [hc]
    refine foldOpt_none_of_mem (P := fun s => s.1 = r)
      (fun s hnd s2 hq hstep => (drawNode_state hstep).trans hq)
      ?_ _ _ hvis rfl
    intro st hst
    unfold Renderer.drawNode
    simp only [hst, hn, hm, hms]
    refine foldOpt_none_of_mem (P := fun s => s.1 = r)
      (fun s q s2 hq hstep => (drawPrimitive_state hstep).trans hq)
      ?_ _ _ hp hst
    intro s hs
    unfold Renderer.drawPrimitive
    rcases hfail with hg | hmat
    · simp only [hs, hpm, hg]
    · cases hgg : r.geometries.get p.geometry with
      | none => simp only [hs, hpm, hgg]
      | some geometry => simp only [hs, hpm, hgg, hmat]

/-- Witness for C2: the concrete renderer whose geometry arena was emptied
(stale geometry handle) panics in render_scene. -/
theorem claim_C2_witness :
    Renderer.render_scene exRendererStale ⟨0, 0⟩ ⟨0, 0⟩ = none :=
  claim_C2 exRendererStale ⟨0, 0⟩ ⟨0, 0⟩ ⟨0, 0⟩ exNode ⟨0, 0⟩ exMesh
    ⟨⟨0, 0⟩, some ⟨0, 0⟩⟩ ⟨0, 0⟩ (by decide) rfl rfl rfl (by decide) rfl
    (Or.inl rfl)

/-- C3: a primitive without a material is skipped by render_scene's primitive
loop: the loop body returns the state unchanged (no draw call, no events, no
panic), and the whole primitive fold equals the fold over only the
material-bearing primitives, in primitive order. -/
theorem claim_C3 :
    (∀ (node : Node) (camera : Camera) (st : Renderer × List RenderEvent)
       (geometry_handle : Index),
       Renderer.drawPrimitive node camera st ⟨geometry_handle, none⟩ = some st) ∧
    (∀ (node : Node) (camera : Camera) (st : Renderer × List RenderEvent)
       (primitives : List Primitive),
       foldOpt (Renderer.drawPrimitive node camera) st primitives =
         foldOpt (Renderer.drawPrimitive node camera) st
           (primitives.filter (fun p => p.material.isSome))) := by
  constructor
  · intro node camera st geometry_handle
    rfl
  · intro node camera st primitives
    induction primitives generalizing st with
    | nil => rfl
    | cons p ps ih =>
      cases hm : p.material with
      | none =>
        have hflt : (p :: ps).filter (fun q => q.material.isSome) =
            ps.filter (fun q => q.material.isSome) := by
          simp [List.filter_cons, hm]
        have hstep : Renderer.drawPrimitive node camera st p = some st := by
          unfold Renderer.drawPrimitive
          rw [hm]
        rw [hflt]
        simp only [foldOpt, hstep]
        exact ih st
      | some material_handle =>
        have hflt : (p :: ps).filter (fun q => q.material.isSome) =
            p :: ps.filter (fun q => q.material.isSome) := by
          simp [List.filter_cons, hm]
        rw [hflt]
        simp only [foldOpt]
        cases hstep : Renderer.drawPrimitive node camera st p with
        | none => rfl
        | some st2 => exact ih st2

/-- C9: draw_call and render_scene leave the renderer's state (all arenas, the
scene graph and the shader cache) unchanged; only the event trace (the
external graphics context) receives effects. -/
theorem claim_C9 :
    (∀ (r : Renderer) (geometry : Geometry) (material : Material) (node : Node)
       (camera : Camera) (out : Renderer × List RenderEvent),
       r.draw_call geometry material node camera = some out → out.1 = r) ∧
    (∀ (r : Renderer) (root_handle camera_handle : Index)
       (out : Renderer × List RenderEvent),
       r.render_scene root_handle camera_handle = some out → out.1 = r) :=
  ⟨fun r geometry material node camera out h => drawCall_state h,
   fun r root_handle camera_handle out h => renderScene_state h⟩

/-- Witness for C9 at the concrete renderer: the state returned by a
successful render_scene is the input state. -/
theorem claim_C9_witness : (exRenderer, exTrace).1 = exRenderer :=
  claim_C9.2 exRenderer ⟨0, 0⟩ ⟨0, 0⟩ (exRenderer, exTrace) rfl

/-- C5: in draw_call, when the geometry has an index accessor, exactly one
indexed draw call is issued (all preceding events are non-draws), using the
index accessor's count and component type, immediately after its buffer is
bound as the element-array buffer; otherwise exactly one non-indexed draw call
is issued whose count is the one established by the bound attributes (the last
shader-declared attribute found in the geometry, 0 when none); in both cases
the mode is the material's declared draw mode. -/
theorem claim_C5 : ∀ (r : Renderer) (geometry : Geometry) (material : Material)
    (node : Node) (camera : Camera) (out : Renderer × List RenderEvent),
    r.draw_call geometry material node camera = some out →
    ∃ shader pre, lookupA material.get_tag r.shaders = some shader ∧
      (∀ e ∈ pre, RenderEvent.isDraw e = false) ∧
      ((∃ accessor_handle accessor buffer,
          geometry.indices = some accessor_handle ∧
          r.accessors.get accessor_handle = some accessor ∧
          r.buffers.get accessor.buffer = some buffer ∧
          out.2 = pre ++
            [RenderEvent.bindBuffer BufferTarget.elementArrayBuffer buffer,
              RenderEvent.drawElements material.draw_mode accessor.count
                accessor.options.component_type 0]) ∨
        (geometry.indices = none ∧
          out.2 = pre ++ [RenderEvent.drawArrays material.draw_mode 0
            ((matchedCounts r geometry shader.attribute_locations).getLastD 0)])) := by
  intro r geometry material node camera out h
  obtain ⟨shader, pre, hs, hpre, hbr⟩ := drawCall_shape h
  exact ⟨shader, pre, hs, fun e he => (hpre e he).1, hbr⟩

/-- Witness for C5 at the concrete non-indexed primitive. -/
theorem claim_C5_witness :
    ∃ shader pre, lookupA exMaterial.get_tag exRenderer.shaders = some shader ∧
      (∀ e ∈ pre, RenderEvent.isDraw e = false) ∧
      ((∃ accessor_handle accessor buffer,
          exGeometry.indices = some accessor_handle ∧
          exRenderer.accessors.get accessor_handle = some accessor ∧
          exRenderer.buffers.get accessor.buffer = some buffer ∧
          (exRenderer, exDrawTrace).2 = pre ++
            [RenderEvent.bindBuffer BufferTarget.elementArrayBuffer buffer,
              RenderEvent.drawElements exMaterial.draw_mode accessor.count
                accessor.options.component_type 0]) ∨
        (exGeometry.indices = none ∧
          (exRenderer, exDrawTrace).2 = pre ++
            [RenderEvent.drawArrays exMaterial.draw_mode 0
              ((matchedCounts exRenderer exGeometry
                shader.attribute_locations).getLastD 0)])) :=
  claim_C5 exRenderer exGeometry exMaterial exNode exCamera
    (exRenderer, exDrawTrace) rfl

/-- C10: in draw_call with no index accessor, exactly one draw event occurs
and it is a non-indexed draw whose count equals the count of the last
shader-declared attribute found in the geometry, in the shader's attribute
iteration order; in particular, when none of the shader's attribute names is
present in the geometry's attribute map, the draw is still issued, with the
defaulted count 0. -/
theorem claim_C10 : ∀ (r : Renderer) (geometry : Geometry) (material : Material)
    (node : Node) (camera : Camera) (shader : Shader)
    (out : Renderer × List RenderEvent),
    lookupA material.get_tag r.shaders = some shader →
    geometry.indices = none →
    r.draw_call geometry material node camera = some out →
    out.2.countP RenderEvent.isDraw = 1 ∧
    out.2.getLast? = some (RenderEvent.drawArrays material.draw_mode 0
      ((matchedCounts r geometry shader.attribute_locations).getLastD 0)) ∧
    ((∀ name ∈ shader.attribute_locations,
        lookupA name geometry.attributes = none) →
      out.2.getLast? = some (RenderEvent.drawArrays material.draw_mode 0 0)) := by
  intro r geometry material node camera shader out hs hi h
  obtain ⟨shader2, pre, hs2, hpre, hbr⟩ := drawCall_shape h
  have hsh : shader2 = shader := by
    rw [hs] at hs2
    exact (Option.some.inj hs2).symm
  rw [hsh] at hbr
  rcases hbr with ⟨ah, acc, buf, hi2, _, _, _⟩ | ⟨_, hout⟩
  · rw [hi] at hi2
    exact Option.noConfusion hi2
  · refine ⟨?_, ?_, ?_⟩
    · rw [hout, List.countP_append]
      have hz : pre.countP RenderEvent.isDraw = 0 := by
        rw [List.countP_eq_zero]
        intro e he
        simp only [(hpre e he).1, Bool.false_eq_true, not_false_eq_true]
      rw [hz]
      rfl
    · rw [hout, List.getLast?_concat]
    · intro hnomatch
      have hmc : matchedCounts r geometry shader.attribute_locations = [] := by
        unfold matchedCounts
        rw [List.filterMap_eq_nil_iff]
        intro name hname
        rw [hnomatch name hname]
      rw [hout, hmc, List.getLast?_concat]
      rfl

/-- Witness for C10 at the concrete primitive with no matching attributes:
exactly one draw event is issued. -/
theorem claim_C10_witness : exDrawTrace.countP RenderEvent.isDraw = 1 :=
  (claim_C10 exRenderer exGeometry exMaterial exNode exCamera exShader
    (exRenderer, exDrawTrace) rfl rfl rfl).1

/-- C4: insert_material populates the shader cache for the inserted
material's tag; starting from a cache without the tag, the first insert
compiles exactly once and a second insert of any material with the identical
tag compiles nothing and leaves the cache untouched (the cached program is
reused). -/
theorem claim_C4 : ∀ (r : Renderer) (m m1 m2 : Material),
    lookupA m1.get_tag r.shaders = none →
    m1.get_tag = m2.get_tag →
    (lookupA m.get_tag (r.insert_material m).1.shaders).isSome = true ∧
    (r.insert_material m1).2.2 = [RenderEvent.compileShader m1.get_tag] ∧
    ((r.insert_material m1).1.insert_material m2).2.2 = ([] : List RenderEvent) ∧
    ((r.insert_material m1).1.insert_material m2).1.shaders =
      (r.insert_material m1).1.shaders := by
  intro r m m1 m2 hnone htag
  have hsh1 : (r.insert_material m1).1.shaders =
      (m1.get_tag, m1.create_shader) :: r.shaders := by
    unfold Renderer.insert_material Renderer.checkup_shader
    simp only [hnone]
  have hlk2 : lookupA m2.get_tag (r.insert_material m1).1.shaders =
      some m1.create_shader := by
    rw [hsh1, ← htag]
    exact lookupA_cons_self m1.get_tag m1.create_shader r.shaders
  refine ⟨?_, ?_, ?_, ?_⟩
  · unfold Renderer.insert_material Renderer.checkup_shader
    cases hl : lookupA m.get_tag r.shaders with
    | some s => simp only [hl, Option.isSome_some]
    | none =>
      simp only [hl]
      rw [lookupA_cons_self]
      rfl
  · unfold Renderer.insert_material Renderer.checkup_shader
    simp only [hnone]
  · show ((r.insert_material m1).1.checkup_shader m2).2 = []
    unfold Renderer.checkup_shader
    simp only [hlk2]
  · show ((r.insert_material m1).1.checkup_shader m2).1.shaders =
      (r.insert_material m1).1.shaders
    unfold Renderer.checkup_shader
    simp only [hlk2]

/-- Witness for C4: inserting two distinct materials with the identical tag
"pbr" into a renderer with an empty cache, the second insert recompiles
nothing. -/
theorem claim_C4_witness :
    ((exRendererNoShader.insert_material exMaterial).1.insert_material
      exMaterial2).2.2 = ([] : List RenderEvent) :=
  (claim_C4 exRendererNoShader exMaterial exMaterial exMaterial2 rfl rfl).2.2.1

/-- C8: PbrMaterial::get_tag depends exactly on which of the two optional
texture slots are populated — two materials get the same tag precisely when
they agree on color_map presence and debug_cube_map presence — and
create_shader derives its preprocessor defines (hence the compiled shader
code) from the same two conditions, so equal tags mean identical shader
compilation requests and different shader code forces different tags. -/
theorem claim_C8 : ∀ (m1 m2 : PbrMaterial),
    ((m1.get_tag = m2.get_tag) ↔
      (m1.color_map.isSome = m2.color_map.isSome ∧
        m1.debug_cube_map.isSome = m2.debug_cube_map.isSome)) ∧
    ((m1.get_tag = m2.get_tag) ↔
      m1.create_shader_source = m2.create_shader_source) := by
  intro m1 m2
  cases h1 : m1.color_map <;> cases h2 : m1.debug_cube_map <;>
    cases h3 : m2.color_map <;> cases h4 : m2.debug_cube_map <;>
      constructor <;>
        simp [PbrMaterial.get_tag, PbrMaterial.create_shader_source,
          PbrMaterial.shader_defines, h1, h2, h3, h4]

theorem auxSparse (g : Gltf) :
    ∀ (accs : List GltfAccessor) (a : GltfAccessor) (i : Nat)
      (bufs : List CreatedBuffer) (bmap : List (Nat × Index))
      (attrs : List Attribute),
    a ∈ accs → a.sparse = true →
    createGltfAttributesAux g i accs bufs bmap attrs = none := by
  intro accs
  induction accs with
  | nil => intro a i bufs bmap attrs hm; simp at hm
  | cons acc rest ih =>
    intro a i bufs bmap attrs hm hsp
    rcases List.mem_cons.mp hm with rfl | hm2
    · simp [createGltfAttributesAux, hsp]
    · cases hsp2 : acc.sparse with
      | true => simp [createGltfAttributesAux, hsp2]
      | false =>
        simp only [createGltfAttributesAux, hsp2, Bool.false_eq_true,
          if_false]
        split
        · split
          · rfl
          · split
            · exact ih a (i + 1) bufs bmap _ hm2 hsp
            · exact ih a (i + 1) _ _ _ hm2 hsp
        · exact ih a (i + 1) bufs bmap _ hm2 hsp

/-- C7: the import adapter rejects any accessor definition carrying a sparse
descriptor by aborting the whole import (a panic, modelled as none), rather
than approximating. -/
theorem claim_C7 : ∀ (g : Gltf) (a : GltfAccessor),
    a ∈ g.accessors → a.sparse = true → create_gltf_attributes g = none := by
  intro g a hm hsp
  exact auxSparse g g.accessors a 0 [] [] [] hm hsp

/-- Witness for C7: the concrete document with a sparse accessor is rejected. -/
theorem claim_C7_witness : create_gltf_attributes exGltfSparse = none :=
  claim_C7 exGltfSparse exSparseAccessor (by decide) rfl

theorem get?_append_len {α : Type} (l1 : List α) (x : α) (l2 : List α) :
    ((l1 ++ [x]) ++ l2).get? l1.length = some x := by
  induction l1 with
  | nil => rfl
  | cons a l ih => exact ih

theorem auxShape (g : Gltf) :
    ∀ (accs : List GltfAccessor) (i : Nat) (bufs : List CreatedBuffer)
      (bmap : List (Nat × Index)) (attrs : List Attribute)
      (B : List CreatedBuffer) (A : List Attribute),
    createGltfAttributesAux g i accs bufs bmap attrs = some (B, A) →
    (∃ atail, A = attrs ++ atail ∧ atail.length = accs.length) ∧
    ∃ btail, B = bufs ++ btail := by
  intro accs
  induction accs with
  | nil =>
    intro i bufs bmap attrs B A h
    simp only [createGltfAttributesAux, Option.some.injEq, Prod.mk.injEq] at h
    obtain ⟨rfl, rfl⟩ := h
    exact ⟨⟨[], by simp, rfl⟩, [], by simp⟩
  | cons acc rest ih =>
    intro i bufs bmap attrs B A h
    simp only [createGltfAttributesAux] at h
    split at h
    · exact Option.noConfusion h
    · split at h
      · split at h
        · exact Option.noConfusion h
        · split at h
          · obtain ⟨⟨atail, hA, hlen⟩, btail, hB⟩ := ih _ _ _ _ _ _ h
            refine ⟨⟨_, by rw [hA, List.append_assoc], ?_⟩, btail, hB⟩
            simp [hlen, Nat.add_comm]
          · obtain ⟨⟨atail, hA, hlen⟩, btail, hB⟩ := ih _ _ _ _ _ _ h
            refine ⟨⟨_, by rw [hA, List.append_assoc], ?_⟩,
              _, by rw [hB, List.append_assoc]⟩
            simp [hlen, Nat.add_comm]
      · obtain ⟨⟨atail, hA, hlen⟩, btail, hB⟩ := ih _ _ _ _ _ _ h
        refine ⟨⟨_, by rw [hA, List.append_assoc], ?_⟩, btail, hB⟩
        simp [hlen, Nat.add_comm]

theorem auxStable (g : Gltf) :
    ∀ (accs : List GltfAccessor) (i : Nat) (bufs : List CreatedBuffer)
      (bmap : List (Nat × Index)) (attrs : List Attribute)
      (B : List CreatedBuffer) (A : List Attribute) (v : Nat) (hIdx : Index),
    lookupA v bmap = some hIdx →
    createGltfAttributesAux g i accs bufs bmap attrs = some (B, A) →
    ∃ atail, A = attrs ++ atail ∧
      ∀ (k : Nat) (ak : GltfAccessor) (vr : GltfViewRef),
        accs.get? k = some ak → ak.view = some vr → vr.index = v →
        (atail.get? k).map Attribute.buffer = some hIdx := by
  intro accs
  induction accs with
  | nil =>
    intro i bufs bmap attrs B A v hIdx hlk h
    simp only [createGltfAttributesAux, Option.some.injEq, Prod.mk.injEq] at h
    obtain ⟨rfl, rfl⟩ := h
    exact ⟨[], by simp, fun k ak vr hk => by simp at hk⟩
  | cons acc rest ih =>
    intro i bufs bmap attrs B A v hIdx hlk h
    simp only [createGltfAttributesAux] at h
    split at h
    · exact Option.noConfusion h
    · split at h
      · rename_i view_def heq1
        split at h
        · exact Option.noConfusion h
        · split at h
          · rename_i handle heq2
            obtain ⟨atail, hA, hp⟩ := ih _ _ _ _ _ _ _ _ hlk h
            refine ⟨_ :: atail, by rw [hA, List.append_assoc, List.singleton_append], ?_⟩
            intro k ak vr hk hv hvi
            cases k with
            | zero =>
              rw [List.get?_cons_zero] at hk
              obtain rfl := Option.some.inj hk
              rw [heq1] at hv
              obtain rfl := Option.some.inj hv
              rw [hvi] at heq2
              rw [hlk] at heq2
              have hh := Option.some.inj heq2
              exact congrArg some hh.symm
            | succ k2 => exact hp k2 ak vr (by simpa using hk) hv hvi
          · rename_i heq2
            have hne : view_def.index ≠ v := by
              intro hcon
              rw [hcon, hlk] at heq2
              exact Option.noConfusion heq2
            have hlk2 : lookupA v
                ((view_def.index, (⟨bufs.length, 0⟩ : Index)) :: bmap) =
                some hIdx := by
              rw [lookupA_cons_ne _ _ hne]
              exact hlk
            obtain ⟨atail, hA, hp⟩ := ih _ _ _ _ _ _ _ _ hlk2 h
            refine ⟨_ :: atail, by rw [hA, List.append_assoc, List.singleton_append], ?_⟩
            intro k ak vr hk hv hvi
            cases k with
            | zero =>
              rw [List.get?_cons_zero] at hk
              obtain rfl := Option.some.inj hk
              rw [heq1] at hv
              obtain rfl := Option.some.inj hv
              exact absurd hvi hne
            | succ k2 => exact hp k2 ak vr (by simpa using hk) hv hvi
      · rename_i heq1
        obtain ⟨atail, hA, hp⟩ := ih _ _ _ _ _ _ _ _ hlk h
        refine ⟨_ :: atail, by rw [hA, List.append_assoc, List.singleton_append], ?_⟩
        intro k ak vr hk hv hvi
        cases k with
        | zero =>
          rw [List.get?_cons_zero] at hk
          obtain rfl := Option.some.inj hk
          rw [heq1] at hv
          exact Option.noConfusion hv
        | succ k2 => exact hp k2 ak vr (by simpa using hk) hv hvi

theorem auxShare (g : Gltf) :
    ∀ (accs : List GltfAccessor) (i : Nat) (bufs : List CreatedBuffer)
      (bmap : List (Nat × Index)) (attrs : List Attribute)
      (B : List CreatedBuffer) (A : List Attribute),
    createGltfAttributesAux g i accs bufs bmap attrs = some (B, A) →
    ∃ atail, A = attrs ++ atail ∧
      ∀ (j k : Nat) (aj ak : GltfAccessor) (vrj vrk : GltfViewRef),
        j < k → accs.get? j = some aj → accs.get? k = some ak →
        aj.view = some vrj → ak.view = some vrk → vrk.index = vrj.index →
        (atail.get? j).map Attribute.buffer =
          (atail.get? k).map Attribute.buffer := by
  intro accs
  induction accs with
  | nil =>
    intro i bufs bmap attrs B A h
    simp only [createGltfAttributesAux, Option.some.injEq, Prod.mk.injEq] at h
    obtain ⟨rfl, rfl⟩ := h
    exact ⟨[], by simp, fun j k aj ak vrj vrk hjk hj => by simp at hj⟩
  | cons acc rest ih =>
    intro i bufs bmap attrs B A h
    simp only [createGltfAttributesAux] at h
    split at h
    · exact Option.noConfusion h
    · split at h
      · rename_i view_def heq1
        split at h
        · exact Option.noConfusion h
        · split at h
          · rename_i handle heq2
            obtain ⟨atail, hA, hp⟩ := ih _ _ _ _ _ _ h
            obtain ⟨atail2, hA2, hp2⟩ := auxStable g rest _ _ _ _ _ _ _ _ heq2 h
            have he : atail = atail2 :=
              List.append_cancel_left (hA.symm.trans hA2)
            rw [← he] at hp2
            refine ⟨_ :: atail,
              by rw [hA, List.append_assoc, List.singleton_append], ?_⟩
            intro j k aj ak vrj vrk hjk hj hk hvj hvk hvi
            cases j with
            | zero =>
              rw [List.get?_cons_zero] at hj
              obtain rfl := Option.some.inj hj
              rw [heq1] at hvj
              obtain rfl := Option.some.inj hvj
              cases k with
              | zero => exact absurd hjk (by omega)
              | succ k2 =>
                have hr := hp2 k2 ak vrk (by simpa using hk) hvk hvi
                simp only [List.get?_cons_zero, List.get?_cons_succ]
                rw [hr]
                rfl
            | succ j2 =>
              cases k with
              | zero => exact absurd hjk (by omega)
              | succ k2 =>
                simp only [List.get?_cons_succ]
                exact hp j2 k2 aj ak vrj vrk (by omega) (by simpa using hj)
                  (by simpa using hk) hvj hvk hvi
          · rename_i heq2
            obtain ⟨atail, hA, hp⟩ := ih _ _ _ _ _ _ h
            have hlknew : lookupA view_def.index
                ((view_def.index, (⟨bufs.length, 0⟩ : Index)) :: bmap) =
                some ⟨bufs.length, 0⟩ :=
              lookupA_cons_self view_def.index ⟨bufs.length, 0⟩ bmap
            obtain ⟨atail2, hA2, hp2⟩ :=
              auxStable g rest _ _ _ _ _ _ _ _ hlknew h
            have he : atail = atail2 :=
              List.append_cancel_left (hA.symm.trans hA2)
            rw [← he] at hp2
            refine ⟨_ :: atail,
              by rw [hA, List.append_assoc, List.singleton_append], ?_⟩
            intro j k aj ak vrj vrk hjk hj hk hvj hvk hvi
            cases j with
            | zero =>
              rw [List.get?_cons_zero] at hj
              obtain rfl := Option.some.inj hj
              rw [heq1] at hvj
              obtain rfl := Option.some.inj hvj
              cases k with
              | zero => exact absurd hjk (by omega)
              | succ k2 =>
                have hr := hp2 k2 ak vrk (by simpa using hk) hvk hvi
                simp only [List.get?_cons_zero, List.get?_cons_succ]
                rw [hr]
                rfl
            | succ j2 =>
              cases k with
              | zero => exact absurd hjk (by omega)
              | succ k2 =>
                simp only [List.get?_cons_succ]
                exact hp j2 k2 aj ak vrj vrk (by omega) (by simpa using hj)
                  (by simpa using hk) hvj hvk hvi
      · rename_i heq1
        obtain ⟨atail, hA, hp⟩ := ih _ _ _ _ _ _ h
        refine ⟨_ :: atail,
          by rw [hA, List.append_assoc, List.singleton_append], ?_⟩
        intro j k aj ak vrj vrk hjk hj hk hvj hvk hvi
        cases j with
        | zero =>
          rw [List.get?_cons_zero] at hj
          obtain rfl := Option.some.inj hj
          rw [heq1] at hvj
          exact Option.noConfusion hvj
        | succ j2 =>
          cases k with
          | zero => exact absurd hjk (by omega)
          | succ k2 =>
            simp only [List.get?_cons_succ]
            exact hp j2 k2 aj ak vrj vrk (by omega) (by simpa using hj)
              (by simpa using hk) hvj hvk hvi

theorem auxCount (g : Gltf) :
    ∀ (accs : List GltfAccessor) (i : Nat) (bufs : List CreatedBuffer)
      (bmap : List (Nat × Index)) (attrs : List Attribute)
      (B : List CreatedBuffer) (A : List Attribute),
    createGltfAttributesAux g i accs bufs bmap attrs = some (B, A) →
    B.length = bufs.length + countNewViews (bmap.map Prod.fst) accs := by
  intro accs
  induction accs with
  | nil =>
    intro i bufs bmap attrs B A h
    simp only [createGltfAttributesAux, Option.some.injEq, Prod.mk.injEq] at h
    obtain ⟨rfl, rfl⟩ := h
    simp [countNewViews]
  | cons acc rest ih =>
    intro i bufs bmap attrs B A h
    simp only [createGltfAttributesAux] at h
    split at h
    · exact Option.noConfusion h
    · split at h
      · rename_i view_def heq1
        split at h
        · exact Option.noConfusion h
        · split at h
          · rename_i handle heq2
            have hmem : view_def.index ∈ bmap.map Prod.fst :=
              lookupA_some_mem heq2
            have hc : countNewViews (bmap.map Prod.fst) (acc :: rest) =
                countNewViews (bmap.map Prod.fst) rest := by
              simp [countNewViews, heq1, hmem]
            rw [hc]
            exact ih _ _ _ _ _ _ h
          · rename_i heq2
            have hnm : view_def.index ∉ bmap.map Prod.fst :=
              lookupA_none_not_mem heq2
            have hc : countNewViews (bmap.map Prod.fst) (acc :: rest) =
                1 + countNewViews (view_def.index :: bmap.map Prod.fst) rest := by
              simp [countNewViews, heq1, hnm]
            rw [hc]
            have hrec := ih _ _ _ _ _ _ h
            simp only [List.length_append, List.length_cons, List.length_nil,
              List.map_cons] at hrec
            omega
      · rename_i heq1
        have hc : countNewViews (bmap.map Prod.fst) (acc :: rest) =
            countNewViews (bmap.map Prod.fst) rest := by
          simp [countNewViews, heq1]
        rw [hc]
        exact ih _ _ _ _ _ _ h

theorem auxTarget (g : Gltf) :
    ∀ (accs : List GltfAccessor) (i : Nat) (bufs : List CreatedBuffer)
      (bmap : List (Nat × Index)) (attrs : List Attribute)
      (B : List CreatedBuffer) (A : List Attribute),
    createGltfAttributesAux g i accs bufs bmap attrs = some (B, A) →
    ∃ atail, A = attrs ++ atail ∧
      ∀ (k : Nat) (ak : GltfAccessor) (vr : GltfViewRef),
        accs.get? k = some ak → ak.view = some vr →
        vr.index ∉ bmap.map Prod.fst →
        (∀ (j : Nat) (aj : GltfAccessor) (vrj : GltfViewRef), j < k →
          accs.get? j = some aj → aj.view = some vrj →
          vrj.index ≠ vr.index) →
        ∃ attr cb, atail.get? k = some attr ∧
          B.get? attr.buffer.idx = some cb ∧
          cb.target = (if g.isIndexBuffer (i + k) = true
            then BufferTarget.elementArrayBuffer
            else BufferTarget.arrayBuffer) := by
  intro accs
  induction accs with
  | nil =>
    intro i bufs bmap attrs B A h
    simp only [createGltfAttributesAux, Option.some.injEq, Prod.mk.injEq] at h
    obtain ⟨rfl, rfl⟩ := h
    exact ⟨[], by simp, fun k ak vr hk => by simp at hk⟩
  | cons acc rest ih =>
    intro i bufs bmap attrs B A h
    simp only [createGltfAttributesAux] at h
    split at h
    · exact Option.noConfusion h
    · split at h
      · rename_i view_def heq1
        split at h
        · exact Option.noConfusion h
        · split at h
          · rename_i handle heq2
            obtain ⟨atail, hA, hp⟩ := ih _ _ _ _ _ _ h
            refine ⟨_ :: atail,
              by rw [hA, List.append_assoc, List.singleton_append], ?_⟩
            intro k ak vr hk hv hnm hfirst
            cases k with
            | zero =>
              rw [List.get?_cons_zero] at hk
              obtain rfl := Option.some.inj hk
              rw [heq1] at hv
              obtain rfl := Option.some.inj hv
              exact absurd (lookupA_some_mem heq2) hnm
            | succ k2 =>
              obtain ⟨attr, cb, h1, h2, h3⟩ := hp k2 ak vr (by simpa using hk)
                hv hnm
                (fun j aj vrj hj hgj hvj =>
                  hfirst (j + 1) aj vrj (by omega) (by simpa using hgj) hvj)
              refine ⟨attr, cb, by simpa using h1, h2, ?_⟩
              rw [show i + (k2 + 1) = i + 1 + k2 from by omega]
              exact h3
          · rename_i heq2
            obtain ⟨atail, hA, hp⟩ := ih _ _ _ _ _ _ h
            obtain ⟨-, btail, hB⟩ := auxShape g rest _ _ _ _ _ _ h
            refine ⟨_ :: atail,
              by rw [hA, List.append_assoc, List.singleton_append], ?_⟩
            intro k ak vr hk hv hnm hfirst
            cases k with
            | zero =>
              rw [List.get?_cons_zero] at hk
              obtain rfl := Option.some.inj hk
              rw [heq1] at hv
              obtain rfl := Option.some.inj hv
              refine ⟨⟨⟨bufs.length, 0⟩, accessorOptions acc view_def⟩,
                ⟨if g.isIndexBuffer i = true then BufferTarget.elementArrayBuffer
                  else BufferTarget.arrayBuffer, BufferUsage.staticDraw,
                  view_def.offset, view_def.length⟩,
                List.get?_cons_zero, ?_, ?_⟩
              · rw [hB]
                exact get?_append_len bufs _ btail
              · rw [Nat.add_zero]
            | succ k2 =>
              have hne0 : view_def.index ≠ vr.index :=
                hfirst 0 acc view_def (by omega) (by rw [List.get?_cons_zero])
                  heq1
              have hnm2 : vr.index ∉
                  (((view_def.index, (⟨bufs.length, 0⟩ : Index)) :: bmap).map
                    Prod.fst) := by
                simp only [List.map_cons, List.mem_cons, not_or]
                exact ⟨fun hcon => hne0 hcon.symm, hnm⟩
              obtain ⟨attr, cb, h1, h2, h3⟩ := hp k2 ak vr (by simpa using hk)
                hv hnm2
                (fun j aj vrj hj hgj hvj =>
                  hfirst (j + 1) aj vrj (by omega) (by simpa using hgj) hvj)
              refine ⟨attr, cb, by simpa using h1, h2, ?_⟩
              rw [show i + (k2 + 1) = i + 1 + k2 from by omega]
              exact h3
      · rename_i heq1
        obtain ⟨atail, hA, hp⟩ := ih _ _ _ _ _ _ h
        refine ⟨_ :: atail,
          by rw [hA, List.append_assoc, List.singleton_append], ?_⟩
        intro k ak vr hk hv hnm hfirst
        cases k with
        | zero =>
          rw [List.get?_cons_zero] at hk
          obtain rfl := Option.some.inj hk
          rw [heq1] at hv
          exact Option.noConfusion hv
        | succ k2 =>
          obtain ⟨attr, cb, h1, h2, h3⟩ := hp k2 ak vr (by simpa using hk)
            hv hnm
            (fun j aj vrj hj hgj hvj =>
              hfirst (j + 1) aj vrj (by omega) (by simpa using hgj) hvj)
          refine ⟨attr, cb, by simpa using h1, h2, ?_⟩
          rw [show i + (k2 + 1) = i + 1 + k2 from by omega]
          exact h3

/-- C6: in create_gltf_attributes, every accessor yields its own Attribute
entry (entries are in accessor order and as numerous as the accessors), any
two accessors that reference the same buffer view share exactly one
underlying buffer handle, exactly one buffer is created per distinct
referenced view, and a created buffer's target is element-array exactly when
some mesh primitive uses the creating accessor (the first accessor
referencing that view) as its index source, else vertex-array. -/
theorem claim_C6 : ∀ (g : Gltf) (B : List CreatedBuffer) (A : List Attribute),
    create_gltf_attributes g = some (B, A) →
    A.length = g.accessors.length ∧
    (∀ (j k : Nat) (aj ak : GltfAccessor) (vrj vrk : GltfViewRef),
      g.accessors.get? j = some aj → g.accessors.get? k = some ak →
      aj.view = some vrj → ak.view = some vrk → vrj.index = vrk.index →
      (A.get? j).map Attribute.buffer = (A.get? k).map Attribute.buffer) ∧
    B.length = countNewViews [] g.accessors ∧
    (∀ (k : Nat) (ak : GltfAccessor) (vr : GltfViewRef),
      g.accessors.get? k = some ak → ak.view = some vr →
      (∀ (j : Nat) (aj : GltfAccessor) (vrj : GltfViewRef), j < k →
        g.accessors.get? j = some aj → aj.view = some vrj →
        vrj.index ≠ vr.index) →
      ∃ attr cb, A.get? k = some attr ∧ B.get? attr.buffer.idx = some cb ∧
        cb.target = (if g.isIndexBuffer k = true
          then BufferTarget.elementArrayBuffer
          else BufferTarget.arrayBuffer)) := by
  intro g B A h
  refine ⟨?_, ?_, ?_, ?_⟩
  · obtain ⟨⟨atail, hA, hlen⟩, -⟩ := auxShape g g.accessors _ _ _ _ _ _ h
    rw [hA, List.nil_append]
    exact hlen
  · obtain ⟨atail, hA, hp⟩ := auxShare g g.accessors _ _ _ _ _ _ h
    rw [List.nil_append] at hA
    subst hA
    intro j k aj ak vrj vrk hj hk hvj hvk hvi
    rcases Nat.lt_trichotomy j k with hlt | rfl | hgt
    · exact hp j k aj ak vrj vrk hlt hj hk hvj hvk hvi.symm
    · rfl
    · exact (hp k j ak aj vrk vrj hgt hk hj hvk hvj hvi).symm
  · have hc := auxCount g g.accessors _ _ _ _ _ _ h
    simpa using hc
  · obtain ⟨atail, hA, hp⟩ := auxTarget g g.accessors _ _ _ _ _ _ h
    rw [List.nil_append] at hA
    subst hA
    intro k ak vr hk hv hfirst
    have hres := hp k ak vr hk hv (by simp) hfirst
    obtain ⟨attr, cb, h1, h2, h3⟩ := hres
    refine ⟨attr, cb, h1, h2, ?_⟩
    rw [h3, Nat.zero_add]

/-- Witness for C6: in the concrete document, accessors 0 and 1 reference the
same view and their Attribute entries carry the same buffer handle. -/
theorem claim_C6_witness :
    (exGltfAttrs.get? 0).map Attribute.buffer =
      (exGltfAttrs.get? 1).map Attribute.buffer :=
  (claim_C6 exGltf exGltfBuffers exGltfAttrs rfl).2.1 0 1 exAccessor0
    exAccessor1 exViewRef0 exViewRef0 rfl rfl rfl rfl rfl
